import Mathlib

/-!
Verification development for the FIAS/GAR address-graph builder
(`import-fias/fias_parser.py`).

Shallow embedding conventions:
* Source attribute values are strings; maps keyed by object id are
  modelled as association lists `List (String × String)` where a write
  prepends a pair, so `List.lookup` (first match) realises Python's
  dict "last write wins" semantics.
* Object ids are carried as canonical decimal strings, so the source's
  `str`/`int` boundary conversions are the identity and are dropped.
* Python truthiness on an optional attribute value (`if objectid:`)
  is `Option.isSome` together with non-emptiness of the string.
* Database tables are lists of row structures; `INSERT … ON CONFLICT
  (objectid) DO NOTHING` keeps the first row per object id; `UPDATE`
  maps over the rows.  A record whose `OBJECTID` attribute is absent
  would abort the run at the database (`NOT NULL` column), so the
  staging model only represents runs that complete: such records are
  not staged.
-/

/-- Python truthiness of an optional attribute string: `None` and `""`
are falsy, everything else truthy. -/
def attrTruthy : Option String → Bool
  | none => false
  | some s => s ≠ ""

/-- An `OBJECT` element of an `AS_ADDR_OBJ` file (attributes used by the
source). -/
structure ObjectRecord where
  rid : Option String := none
  objectid : Option String := none
  objectguid : Option String := none
  name : Option String := none
  typename : Option String := none
  level : Option String := none
  isactual : Option String := none
  isactive : Option String := none
  updatedate : Option String := none
  deriving DecidableEq

/-- An `ITEM` element of an `AS_MUN_HIERARCHY` / `AS_ADM_HIERARCHY`
file. -/
structure ItemRecord where
  objectid : Option String := none
  parentobjid : Option String := none
  isactive : Option String := none
  deriving DecidableEq

/-- One `OBJECT` of the level scan of `load_hierarchy_and_levels`: for
an `OBJECT` with `ISACTUAL = '1'` and `ISACTIVE = '1'` and truthy
`OBJECTID`/`LEVEL`, record `level_map[objectid] = level`. -/
def levelStep (m : List (String × String)) (r : ObjectRecord) :
    List (String × String) :=
  if r.isactual == some "1" && r.isactive == some "1" then
    match r.objectid, r.level with
    | some oid, some lvl =>
        if oid ≠ "" && lvl ≠ "" then (oid, lvl) :: m else m
    | _, _ => m
  else m

/-- Step 1 of `load_hierarchy_and_levels`: the level scan over
`AS_ADDR_OBJ`. -/
def loadLevels (recs : List ObjectRecord) (lm : List (String × String)) :
    List (String × String) :=
  recs.foldl levelStep lm

/-- One `ITEM` of the municipal scan: an active edge is written
unconditionally (`hierarchy_map[obj] = parent`). -/
def munStep (m : List (String × String)) (r : ItemRecord) :
    List (String × String) :=
  if r.isactive == some "1" then
    match r.objectid, r.parentobjid with
    | some oid, some pid =>
        if oid ≠ "" && pid ≠ "" then (oid, pid) :: m else m
    | _, _ => m
  else m

/-- Step 2 of `load_hierarchy_and_levels`: the municipal hierarchy scan
over `AS_MUN_HIERARCHY`. -/
def loadMunHierarchy (recs : List ItemRecord) (hm : List (String × String)) :
    List (String × String) :=
  recs.foldl munStep hm

/-- One `ITEM` of the administrative scan: an active edge is written
only when the child id is still absent from the map. -/
def admStep (m : List (String × String)) (r : ItemRecord) :
    List (String × String) :=
  if r.isactive == some "1" then
    match r.objectid, r.parentobjid with
    | some oid, some pid =>
        if oid ≠ "" && pid ≠ "" then
          if (m.lookup oid).isNone then (oid, pid) :: m else m
        else m
    | _, _ => m
  else m

/-- Step 3 of `load_hierarchy_and_levels`: the administrative hierarchy
scan over `AS_ADM_HIERARCHY`. -/
def loadAdmHierarchy (recs : List ItemRecord) (hm : List (String × String)) :
    List (String × String) :=
  recs.foldl admStep hm

/-- The whole hierarchy index build: municipal scan first, then the
administrative scan on top of its result. -/
def buildHierarchyMap (munRecs admRecs : List ItemRecord) :
    List (String × String) :=
  loadAdmHierarchy admRecs (loadMunHierarchy munRecs [])

/-- `level_map.get(id) in target_levels` (a missing level is never a
target, matching `None in [...]` being false in the source). -/
def levelIsTarget (lm : List (String × String)) (targets : List String)
    (oid : String) : Bool :=
  match lm.lookup oid with
  | some lv => targets.contains lv
  | none => false

/-- The upward walk of `find_parent_by_level`: follow `hierarchy_map`,
keeping a visited set; return the parent as soon as its level is in the
target set; stop with `none` when the walk leaves the map or revisits
an id.  `fuel` bounds the recursion; `hm.length + 1` is proved
sufficient below, so the bounded function computes the source loop. -/
def walkUp (hm lm : List (String × String)) (targets : List String) :
    Nat → String → List String → Option String
  | 0, _, _ => none
  | fuel + 1, current, visited =>
    if current == "" || visited.contains current then none
    else
      match hm.lookup current with
      | none => none
      | some parent =>
          if levelIsTarget lm targets parent then some parent
          else walkUp hm lm targets fuel parent (current :: visited)

/-- `find_parent_by_level(objectid, target_levels)` from the source:
return the object itself when its own level is a target, otherwise the
first target-level ancestor met on the upward walk. -/
def find_parent_by_level (hm lm : List (String × String)) (objectid : String)
    (targets : List String) : Option String :=
  if objectid == "" then none
  else if levelIsTarget lm targets objectid then some objectid
  else walkUp hm lm targets (hm.length + 1) objectid []

/-- The upward walk of `find_mo_parent` (the source duplicates the loop
with the municipal levels `['3', '4']` hard-coded). -/
def moWalkUp (hm lm : List (String × String)) :
    Nat → String → List String → Option String
  | 0, _, _ => none
  | fuel + 1, current, visited =>
    if current == "" || visited.contains current then none
    else
      match hm.lookup current with
      | none => none
      | some parent =>
          if levelIsTarget lm ["3", "4"] parent then some parent
          else moWalkUp hm lm fuel parent (current :: visited)

/-- `find_mo_parent(objectid)` from the source: the special search for a
municipality (level 3 or 4) parent. -/
def find_mo_parent (hm lm : List (String × String)) (objectid : String) :
    Option String :=
  if objectid == "" then none
  else if levelIsTarget lm ["3", "4"] objectid then some objectid
  else moWalkUp hm lm (hm.length + 1) objectid []

/-- The ancestor chain of an object id: `chainFrom hm oid k` is the
`k`-th iterate of the parent map starting at `oid` (`none` once the
walk has left the map). -/
def chainFrom (hm : List (String × String)) (oid : String) : Nat → Option String
  | 0 => some oid
  | n + 1 => (chainFrom hm oid n).bind (fun c => hm.lookup c)

/-- The number of hierarchy edges whose child id has not been visited
yet: the decreasing measure of the walk. -/
def liveKeys (hm : List (String × String)) (visited : List String) : Nat :=
  (hm.filter (fun q => !visited.contains q.1)).length

/-- An `ITEM` record that the municipal/administrative scans treat as an
active edge for child id `c`: `ISACTIVE = '1'`, the `OBJECTID` equals
`c` and is non-empty, and the `PARENTOBJID` is truthy. -/
def isActiveEdgeOf (r : ItemRecord) (c : String) : Prop :=
  r.isactive = some "1" ∧ r.objectid = some c ∧ c ≠ "" ∧
    attrTruthy r.parentobjid = true

instance (r : ItemRecord) (c : String) : Decidable (isActiveEdgeOf r c) := by
  unfold isActiveEdgeOf
  infer_instance

/-- A row of the `municipalities` / `settlements` / `streets` tables
(the three tables share the columns staged from `base_data`; the link
columns written by later passes are `parent_id` for municipalities,
`municipality_id` for settlements, and `settlement_id` with
`municipality_id` for streets). -/
structure AddrRow where
  rid : Option String := none
  objectid : String
  objectguid : Option String := none
  name : String := ""
  typename : String := ""
  level : String := ""
  parent_id : Option String := none
  settlement_id : Option String := none
  municipality_id : Option String := none
  updatedate : Option String := none
  deriving DecidableEq

/-- A row of the `houses` table. -/
structure HouseRow where
  rid : Option String := none
  objectid : String
  objectguid : Option String := none
  house_number : Option String := none
  building_number : Option String := none
  structure_number : Option String := none
  street_id : Option String := none
  settlement_id : Option String := none
  municipality_id : Option String := none
  cadastral_number : Option String := none
  floors_count : Option Int := none
  residents_count : Option Int := none
  full_address : Option String := none
  updatedate : Option String := none
  deriving DecidableEq

/-- A row of the `land_plots` table. -/
structure PlotRow where
  rid : Option String := none
  objectid : String
  objectguid : Option String := none
  number_plot : Option String := none
  settlement_id : Option String := none
  municipality_id : Option String := none
  updatedate : Option String := none
  deriving DecidableEq

/-- The five entity tables of the configured schema. -/
structure DB where
  municipalities : List AddrRow := []
  settlements : List AddrRow := []
  streets : List AddrRow := []
  houses : List HouseRow := []
  land_plots : List PlotRow := []
  deriving DecidableEq

/-- `INSERT … ON CONFLICT (objectid) DO NOTHING`: a row whose object id
is already present is left untouched. -/
def insertSkipConflict {α : Type} (key : α → String) (table : List α)
    (row : α) : List α :=
  if table.any (fun t => key t == key row) then table else table ++ [row]

/-- The `base_data` tuple staged for an address object (`NAME` and
`TYPENAME` default to `''`, `LEVEL` to `''`; the active flags are `1`
by the guard). -/
def objRowOf (r : ObjectRecord) (oid : String) : AddrRow :=
  { rid := r.rid, objectid := oid, objectguid := r.objectguid,
    name := r.name.getD "", typename := r.typename.getD "",
    level := r.level.getD "", updatedate := r.updatedate }

/-- One `OBJECT` of `process_addr_objects`: an object with both active
flags set is routed by level into the municipality (3–4), settlement
(5–6) or street (7–8) batch; other levels are counted and dropped.  A
record without an `OBJECTID` would abort the batch insert at the
`NOT NULL` column, so only completed runs are modelled (see header). -/
def stageObjectStep (db : DB) (r : ObjectRecord) : DB :=
  if r.isactual == some "1" && r.isactive == some "1" then
    match r.objectid with
    | some oid =>
        let lvl := r.level.getD ""
        if lvl == "3" || lvl == "4" then
          let tbl := insertSkipConflict (fun t => t.objectid)
            db.municipalities (objRowOf r oid)
          { db with municipalities := tbl }
        else if lvl == "5" || lvl == "6" then
          let tbl := insertSkipConflict (fun t => t.objectid)
            db.settlements (objRowOf r oid)
          { db with settlements := tbl }
        else if lvl == "7" || lvl == "8" then
          let tbl := insertSkipConflict (fun t => t.objectid)
            db.streets (objRowOf r oid)
          { db with streets := tbl }
        else db
    | none => db
  else db

/-- `process_addr_objects`: stage every active address object. -/
def processAddrObjects (recs : List ObjectRecord) (db : DB) : DB :=
  recs.foldl stageObjectStep db

/-- Provenance of a staged row: it was already in the table, or it is
the `base_data` row of an active record routed at the right level. -/
def stagedFrom (recs : List ObjectRecord) (levels : List String)
    (row : AddrRow) : Prop :=
  ∃ r ∈ recs, r.isactual = some "1" ∧ r.isactive = some "1" ∧
    (r.level.getD "") ∈ levels ∧
    ∃ oid, r.objectid = some oid ∧ row = objRowOf r oid

/-- Truthiness of an optional integer id result (`if parent_id:` in the
source, where the value is `None` or an `int`): `None` and `0` are
falsy.  Ids being canonical decimal strings, the integer `0` is the
string `"0"`. -/
def intOptTruthy : Option String → Bool
  | none => false
  | some s => s ≠ "0"

/-- Step 1 of `build_hierarchy_links_fixed`: for every municipality row
compute `find_mo_parent`; update `parent_id` only when the result is
truthy and differs from the row's own object id. -/
def fillMunicipalityParents (hm lm : List (String × String)) (db : DB) : DB :=
  let tbl := db.municipalities.map (fun row =>
    let parent := find_mo_parent hm lm row.objectid
    if intOptTruthy parent && parent != some row.objectid then
      { row with parent_id := parent }
    else row)
  { db with municipalities := tbl }

/-- Step 2 of `build_hierarchy_links_fixed`: for every settlement row
compute `find_mo_parent`; update `municipality_id` when truthy. -/
def fillSettlementMunicipalities (hm lm : List (String × String))
    (db : DB) : DB :=
  let tbl := db.settlements.map (fun row =>
    let mo := find_mo_parent hm lm row.objectid
    if intOptTruthy mo then { row with municipality_id := mo } else row)
  { db with settlements := tbl }

/-- Step 3 of `build_hierarchy_links_fixed`: for every street row
compute `find_parent_by_level(street, ['5','6'])`; update
`settlement_id` when truthy. -/
def fillStreetSettlements (hm lm : List (String × String)) (db : DB) : DB :=
  let tbl := db.streets.map (fun row =>
    let sid := find_parent_by_level hm lm row.objectid ["5", "6"]
    if intOptTruthy sid then { row with settlement_id := sid } else row)
  { db with streets := tbl }

/-- Step 4 of `build_hierarchy_links_fixed`: the set-based
`UPDATE streets SET municipality_id = s.municipality_id FROM
settlements s WHERE streets.settlement_id = s.objectid AND
s.municipality_id IS NOT NULL`. -/
def fillStreetMunicipalities (db : DB) : DB :=
  let tbl := db.streets.map (fun st =>
    match st.settlement_id with
    | some sid =>
        match db.settlements.find? (fun s => s.objectid == sid) with
        | some s =>
            match s.municipality_id with
            | some m => { st with municipality_id := some m }
            | none => st
        | none => st
    | none => st)
  { db with streets := tbl }

/-- `build_hierarchy_links_fixed`: the four steps in source order. -/
def buildHierarchyLinksFixed (hm lm : List (String × String)) (db : DB) : DB :=
  fillStreetMunicipalities
    (fillStreetSettlements hm lm
      (fillSettlementMunicipalities hm lm
        (fillMunicipalityParents hm lm db)))

/-- A `HOUSE` element of an `AS_HOUSES` file. -/
structure HouseRecord where
  rid : Option String := none
  objectid : Option String := none
  objectguid : Option String := none
  housenum : Option String := none
  addnum1 : Option String := none
  addnum2 : Option String := none
  isactual : Option String := none
  isactive : Option String := none
  updatedate : Option String := none
  deriving DecidableEq

/-- The staged row of an active house record (links, parameters and the
full address start out null). -/
def houseRowOf (r : HouseRecord) (oid : String) : HouseRow :=
  { rid := r.rid, objectid := oid, objectguid := r.objectguid,
    house_number := r.housenum, building_number := r.addnum1,
    structure_number := r.addnum2, updatedate := r.updatedate }

/-- One `HOUSE` of `process_houses`: stage the active record with
conflict skip. -/
def stageHouseStep (db : DB) (r : HouseRecord) : DB :=
  if r.isactual == some "1" && r.isactive == some "1" then
    match r.objectid with
    | some oid =>
        let tbl := insertSkipConflict (fun t => t.objectid)
          db.houses (houseRowOf r oid)
        { db with houses := tbl }
    | none => db
  else db

/-- `process_houses`: stage every active house. -/
def processHouses (recs : List HouseRecord) (db : DB) : DB :=
  recs.foldl stageHouseStep db

/-- One house of `link_houses_to_hierarchy_fixed`: resolve street,
settlement and municipality through the hierarchy index and write all
three columns in one update when at least one is truthy. -/
def linkHouseRow (hm lm : List (String × String)) (h : HouseRow) : HouseRow :=
  let street_id := find_parent_by_level hm lm h.objectid ["7", "8"]
  let settlement_id := find_parent_by_level hm lm h.objectid ["5", "6"]
  let mo_id := find_mo_parent hm lm h.objectid
  if intOptTruthy street_id || intOptTruthy settlement_id ||
      intOptTruthy mo_id then
    { h with street_id := street_id, settlement_id := settlement_id,
             municipality_id := mo_id }
  else h

/-- `link_houses_to_hierarchy_fixed` over the staged houses. -/
def linkHousesToHierarchyFixed (hm lm : List (String × String))
    (db : DB) : DB :=
  { db with houses := db.houses.map (linkHouseRow hm lm) }

/-- `fix_municipality_links`: the set-based through-settlement repair
for houses and land plots whose `municipality_id` is still null. -/
def fixMunicipalityLinks (db : DB) : DB :=
  let houses := db.houses.map (fun h =>
    match h.municipality_id, h.settlement_id with
    | none, some sid =>
        match db.settlements.find? (fun s => s.objectid == sid) with
        | some s =>
            match s.municipality_id with
            | some m => { h with municipality_id := some m }
            | none => h
        | none => h
    | _, _ => h)
  let plots := db.land_plots.map (fun p =>
    match p.municipality_id, p.settlement_id with
    | none, some sid =>
        match db.settlements.find? (fun s => s.objectid == sid) with
        | some s =>
            match s.municipality_id with
            | some m => { p with municipality_id := some m }
            | none => p
        | none => p
    | _, _ => p)
  { db with houses := houses, land_plots := plots }

/-- A `PARAM` element of an `AS_HOUSES_PARAMS` file. -/
structure ParamRecord where
  objectid : Option String := none
  typeid : Option String := none
  value : Option String := none
  deriving DecidableEq

/-- The `param_mapping` dictionary of `process_house_params`. -/
def param_mapping (typeid : String) : Option String :=
  if typeid == "8" then some "cadastral_number"
  else if typeid == "14" then some "residents_count"
  else if typeid == "15" then some "floors_count"
  else none

/-- Python `str.strip()` (whitespace from both ends). -/
def pyStrip (s : String) : String :=
  String.mk (((s.data.dropWhile Char.isWhitespace).reverse.dropWhile
    Char.isWhitespace).reverse)

/-- Split a character list on a separator (Python `str.split(sep)` for
a one-character separator, as the decimal point of a float literal). -/
def splitOnChar (sep : Char) (l : List Char) : List (List Char) :=
  l.foldr (fun c acc =>
    match acc with
    | [] => [[c]]
    | cur :: rest =>
        if c = sep then [] :: (cur :: rest) else (c :: cur) :: rest) [[]]

/-- The numeric value of a list of decimal digits. -/
def digitsToNat (l : List Char) : Nat :=
  l.foldl (fun n c => n * 10 + (c.toNat - 48)) 0

/-- Models the source's `int(float(x))` on plain decimal numerals
(optional sign, digits, optional single decimal point): parse and
truncate toward zero, `none` when the parse fails.  FIAS parameter
values take this decimal form; the exponent/`inf`/`nan` spellings of
the wider Python float grammar are not modelled. -/
def intOfFloatStr (s : String) : Option Int :=
  let cs := s.data
  let neg := cs.head? == some '-'
  let body := match cs with
    | '-' :: rest => rest
    | '+' :: rest => rest
    | _ => cs
  match splitOnChar '.' body with
  | [ip] =>
      if ip ≠ [] && ip.all Char.isDigit then
        some (if neg then -(digitsToNat ip : Int) else (digitsToNat ip : Int))
      else none
  | [ip, fp] =>
      if (ip ≠ [] || fp ≠ []) && ip.all Char.isDigit &&
          fp.all Char.isDigit then
        some (if neg then -(digitsToNat ip : Int) else (digitsToNat ip : Int))
      else none
  | _ => none

/-- A validated parameter value: a (truncated) string for
`cadastral_number`, an integer for the count fields. -/
inductive ParamValue where
  | str (s : String)
  | int (n : Int)
  deriving DecidableEq

/-- `validate_param_value` from the source: strip, reject empty;
cadastral numbers need a colon and are truncated to 100 characters;
the count fields parse as an integer via float and must lie in
`0 ≤ n ≤ 1000`; unknown fields are truncated to 100 characters. -/
def validate_param_value (field_name value : String) : Option ParamValue :=
  let clean_value := pyStrip value
  if clean_value == "" then none
  else if field_name == "cadastral_number" then
    if clean_value.data.contains ':' then
      some (ParamValue.str (String.mk (clean_value.data.take 100)))
    else none
  else if field_name == "residents_count" ||
      field_name == "floors_count" then
    match intOfFloatStr clean_value with
    | some num =>
        if 0 ≤ num && num ≤ 1000 then some (ParamValue.int num) else none
    | none => none
  else some (ParamValue.str (String.mk (clean_value.data.take 100)))

/-- The single-row `UPDATE houses SET {field} = %s WHERE objectid = %s`
of `process_house_params`, applied to one row.  A field/value type
mismatch cannot arise from `validate_param_value`; if it did, the
database error would be swallowed by the bare `except`, leaving the row
unchanged, which the fall-through arm mirrors. -/
def setHouseField (h : HouseRow) (field : String) (v : ParamValue) : HouseRow :=
  match field, v with
  | "cadastral_number", ParamValue.str s => { h with cadastral_number := some s }
  | "residents_count", ParamValue.int n => { h with residents_count := some n }
  | "floors_count", ParamValue.int n => { h with floors_count := some n }
  | _, _ => h

/-- The mutable state of `process_house_params`: the tables plus the
`processed` and `updated` counters (the only counters the pass keeps). -/
structure ParamState where
  db : DB
  processed : Nat := 0
  updated : Nat := 0
  deriving DecidableEq

/-- One `PARAM` of `process_house_params`: `processed` always advances;
a record with truthy `OBJECTID`, `TYPEID`, `VALUE` and a known type id
is validated; an accepted value updates the matching house rows and
adds the row count to `updated`; a rejected value changes nothing else. -/
def processParamStep (st : ParamState) (r : ParamRecord) : ParamState :=
  let field_name := r.typeid.bind param_mapping
  if attrTruthy r.objectid && attrTruthy r.typeid && attrTruthy r.value &&
      field_name.isSome then
    match field_name, r.objectid, r.value with
    | some fname, some oid, some value =>
        match validate_param_value fname value with
        | some clean =>
            let rowcount :=
              (st.db.houses.filter (fun h => h.objectid == oid)).length
            let houses := st.db.houses.map (fun h =>
              if h.objectid == oid then setHouseField h fname clean else h)
            { db := { st.db with houses := houses },
              processed := st.processed + 1,
              updated := st.updated + rowcount }
        | none => { st with processed := st.processed + 1 }
    | _, _, _ => { st with processed := st.processed + 1 }
  else { st with processed := st.processed + 1 }

/-- `process_house_params` over a parameter stream. -/
def processHouseParams (recs : List ParamRecord) (db : DB) : ParamState :=
  recs.foldl processParamStep { db := db }

/-- A `STEAD` element of an `AS_STEADS` file. -/
structure SteadRecord where
  rid : Option String := none
  objectid : Option String := none
  objectguid : Option String := none
  number : Option String := none
  isactual : Option String := none
  isactive : Option String := none
  updatedate : Option String := none
  deriving DecidableEq

/-- The staged row of an active land-plot record. -/
def plotRowOf (r : SteadRecord) (oid : String) : PlotRow :=
  { rid := r.rid, objectid := oid, objectguid := r.objectguid,
    number_plot := r.number, updatedate := r.updatedate }

/-- One `STEAD` of `process_land_plots`. -/
def stagePlotStep (db : DB) (r : SteadRecord) : DB :=
  if r.isactual == some "1" && r.isactive == some "1" then
    match r.objectid with
    | some oid =>
        let tbl := insertSkipConflict (fun t => t.objectid)
          db.land_plots (plotRowOf r oid)
        { db with land_plots := tbl }
    | none => db
  else db

/-- `process_land_plots`: stage every active land plot. -/
def processLandPlots (recs : List SteadRecord) (db : DB) : DB :=
  recs.foldl stagePlotStep db

/-- `link_land_plots_to_hierarchy`: resolve settlement (5–6) and
municipality (3–4) via `find_parent_by_level` and write both columns
when at least one is truthy. -/
def linkLandPlots (hm lm : List (String × String)) (db : DB) : DB :=
  let tbl := db.land_plots.map (fun p =>
    let settlement_id := find_parent_by_level hm lm p.objectid ["5", "6"]
    let mun_id := find_parent_by_level hm lm p.objectid ["3", "4"]
    if intOptTruthy settlement_id || intOptTruthy mun_id then
      { p with settlement_id := settlement_id, municipality_id := mun_id }
    else p)
  { db with land_plots := tbl }

/-- SQL `TRIM` with the default space character, as applied to the
composed address. -/
def trimSpaces (s : String) : String :=
  String.mk (((s.toList.dropWhile (fun c => c = ' ')).reverse.dropWhile
    (fun c => c = ' ')).reverse)

/-- The `CONCAT_WS(', ', …)` body of `build_full_addresses`: the
municipality name, the settlement and street with their type prefixes
(their `name` columns are `NOT NULL`, so those `CASE` guards always
hold), and the house/building/structure numbers with their prefixes
when present; null parts are skipped and the result is trimmed. -/
def mkFullAddress (m se st : AddrRow) (h : HouseRow) : String :=
  let parts : List (Option String) :=
    [some m.name,
     some (se.typename ++ " " ++ se.name),
     some (st.typename ++ " " ++ st.name),
     h.house_number.map (fun n => "д. " ++ n),
     h.building_number.map (fun n => "к. " ++ n),
     h.structure_number.map (fun n => "стр. " ++ n)]
  trimSpaces (String.intercalate ", " (parts.filterMap id))

/-- One house of `build_full_addresses`: the inner join against the
three ancestor tables fills `full_address` only when all three foreign
keys are non-null and reference existing rows. -/
def addressHouse (db : DB) (h : HouseRow) : HouseRow :=
  match h.municipality_id, h.settlement_id, h.street_id with
  | some mid, some sid, some stid =>
      match db.municipalities.find? (fun m => m.objectid == mid),
            db.settlements.find? (fun s => s.objectid == sid),
            db.streets.find? (fun s => s.objectid == stid) with
      | some m, some se, some st =>
          { h with full_address := some (mkFullAddress m se st h) }
      | _, _, _ => h
  | _, _, _ => h

/-- `build_full_addresses` over the houses table. -/
def buildFullAddresses (db : DB) : DB :=
  { db with houses := db.houses.map (addressHouse db) }

/-- Step 2 of `fix_final_mo_connections` (not invoked by `main`): the
set-based through-street fill `UPDATE houses SET municipality_id =
st.municipality_id FROM streets st WHERE h.street_id = st.objectid AND
st.municipality_id IS NOT NULL AND h.municipality_id IS NULL`. -/
def fixFinalViaStreets (db : DB) : DB :=
  let tbl := db.houses.map (fun h =>
    match h.municipality_id, h.street_id with
    | none, some stid =>
        match db.streets.find? (fun s => s.objectid == stid) with
        | some st =>
            match st.municipality_id with
            | some m => { h with municipality_id := some m }
            | none => h
        | none => h
    | _, _ => h)
  { db with houses := tbl }

/-- Step 3 of `fix_final_mo_connections` (not invoked by `main`): the
residual direct lookup over at most 50,000 houses still missing a
municipality. -/
def fixFinalResidual (hm lm : List (String × String)) (db : DB) : DB :=
  let remaining :=
    (db.houses.filter (fun h => h.municipality_id == none)).take 50000
  let tbl := db.houses.map (fun h =>
    if remaining.any (fun q => q.objectid == h.objectid) then
      let mo := find_parent_by_level hm lm h.objectid ["3", "4"]
      if intOptTruthy mo then { h with municipality_id := mo } else h
    else h)
  { db with houses := tbl }

/-- `fix_final_mo_connections` (defined in the source but never called
from `main`): through-street fill, then residual direct lookup. -/
def fixFinalMoConnections (hm lm : List (String × String)) (db : DB) : DB :=
  fixFinalResidual hm lm (fixFinalViaStreets db)

/-- The XML inputs of one run. -/
structure FiasInput where
  addrObjs : List ObjectRecord := []
  munItems : List ItemRecord := []
  admItems : List ItemRecord := []
  houseRecs : List HouseRecord := []
  paramRecs : List ParamRecord := []
  steadRecs : List SteadRecord := []

/-- The full pipeline of `main`: build the hierarchy index, stage
address objects, build hierarchy links, stage and link houses, repair
municipality links through settlements, apply house parameters, stage
and link land plots, compose full addresses.  `main` never calls
`fix_final_mo_connections`, so it does not appear here. -/
def runPipeline (inp : FiasInput) : DB :=
  let lm := loadLevels inp.addrObjs []
  let hm := buildHierarchyMap inp.munItems inp.admItems
  let db1 := processAddrObjects inp.addrObjs {}
  let db2 := buildHierarchyLinksFixed hm lm db1
  let db3 := processHouses inp.houseRecs db2
  let db4 := linkHousesToHierarchyFixed hm lm db3
  let db5 := fixMunicipalityLinks db4
  let db6 := (processHouseParams inp.paramRecs db5).db
  let db7 := processLandPlots inp.steadRecs db6
  let db8 := linkLandPlots hm lm db7
  buildFullAddresses db8

/-- Substring containment over token lists (Python's `in` on
strings). -/
def listContainsSub {α : Type} [BEq α] (l pat : List α) : Bool :=
  (List.range (l.length + 1)).any (fun i => pat.isPrefixOf (l.drop i))

/-- Python `str.upper()` on the ASCII range (FIAS file names are
ASCII). -/
def pyUpper (s : String) : String :=
  String.mk (s.data.map Char.toUpper)

/-- Python `str.endswith(suffix)`. -/
def pyEndsWith (s suffix : String) : Bool :=
  suffix.data.reverse.isPrefixOf s.data.reverse

/-- The filename filter of `find_files`: `pattern in filename.upper()
and filename.endswith('.XML')`.  Note that only the filename is
uppercased; the pattern is used verbatim. -/
def fileMatches (pattern filename : String) : Bool :=
  listContainsSub (pyUpper filename).data pattern.data &&
    pyEndsWith filename ".XML"

/-- One directory of `find_files`: append the matching entries of an
existing directory (a missing directory, or a listing error swallowed
by the `except`, contributes nothing). -/
def findStep (listings : String → Option (List String)) (pattern : String)
    (files : List String) (d : String) : List String :=
  match listings d with
  | some names =>
      files ++ (names.filter (fun n => fileMatches pattern n)).map
        (fun n => d ++ "/" ++ n)
  | none => files

/-- The directories `find_files` searches: the supplied root, plus the
single `<root>/<region_code>` subdirectory when a region code is
configured (truthy). -/
def searchDirs (directory : String) (regionCode : Option String) :
    List String :=
  [directory] ++
    (if attrTruthy regionCode then [directory ++ "/" ++ regionCode.getD ""]
     else [])

/-- `find_files(directory, pattern)` over an abstract filesystem
(`listings` maps a directory path to its entries, `none` when the
directory does not exist). -/
def find_files (directory : String)
    (listings : String → Option (List String)) (regionCode : Option String)
    (pattern : String) : List String :=
  (searchDirs directory regionCode).foldl (findStep listings pattern) []

/-- Case-insensitive containment of a pattern in a filename, the
reading the claim gives: both sides uppercased, where the source
uppercases only the filename. -/
def caseInsensitiveContains (filename pattern : String) : Bool :=
  listContainsSub (pyUpper filename).data (pyUpper pattern).data

/-- Scenario 3 of the spec: municipality 100 (level 4), settlement 200
(level 6), street 300 (level 8); municipal edges 300 → 200 and
200 → 100; house 400 with no hierarchy edge at all. -/
def scenario3Input : FiasInput :=
  { addrObjs :=
      [{ objectid := some "100", level := some "4", name := some "Округ",
         typename := some "МО", isactual := some "1",
         isactive := some "1" },
       { objectid := some "200", level := some "6", name := some "Село",
         typename := some "с", isactual := some "1",
         isactive := some "1" },
       { objectid := some "300", level := some "8",
         name := some "Ленина", typename := some "ул",
         isactual := some "1", isactive := some "1" }],
    munItems :=
      [{ objectid := some "300", parentobjid := some "200",
         isactive := some "1" },
       { objectid := some "200", parentobjid := some "100",
         isactive := some "1" }],
    houseRecs :=
      [{ objectid := some "400", housenum := some "5",
         isactual := some "1", isactive := some "1" }] }

theorem moWalkUp_eq_walkUp (hm lm : List (String × String)) :
    ∀ (fuel : Nat) (current : String) (visited : List String),
      moWalkUp hm lm fuel current visited =
        walkUp hm lm ["3", "4"] fuel current visited := by
  intro fuel
  induction fuel with
  | zero => intro current visited; rfl
  | succ n ih =>
      intro current visited
      simp only [moWalkUp, walkUp]
      by_cases h : (current == "" || visited.contains current) = true
      · rw [if_pos h, if_pos h]
      · rw [if_neg h, if_neg h]
        cases hl : hm.lookup current with
        | none => rfl
        | some parent =>
            simp only [hl]
            by_cases ht : levelIsTarget lm ["3", "4"] parent = true
            · rw [if_pos ht, if_pos ht]
            · rw [if_neg ht, if_neg ht, ih]

/-- C3: for every hierarchy map, level map and object id,
`find_mo_parent(id)` returns exactly the same result as
`find_parent_by_level(id, ['3','4'])`. -/
theorem find_mo_parent_eq_find_parent_by_level
    (hm lm : List (String × String)) (objectid : String) :
    find_mo_parent hm lm objectid =
      find_parent_by_level hm lm objectid ["3", "4"] := by
  unfold find_mo_parent find_parent_by_level
  rw [moWalkUp_eq_walkUp]

theorem chainFrom_shift (hm : List (String × String)) {c p : String}
    (hc : hm.lookup c = some p) :
    ∀ j, chainFrom hm c (j + 1) = chainFrom hm p j := by
  intro j
  induction j with
  | zero => simp [chainFrom, hc]
  | succ n ih =>
      have hstep : chainFrom hm c (n + 1 + 1) =
          (chainFrom hm c (n + 1)).bind (fun x => hm.lookup x) := rfl
      rw [hstep, ih]
      rfl

theorem walkUp_sound (hm lm : List (String × String)) (targets : List String) :
    ∀ (fuel : Nat) (c : String) (visited : List String) (p : String),
      walkUp hm lm targets fuel c visited = some p →
      ∃ k, 1 ≤ k ∧ chainFrom hm c k = some p ∧
        levelIsTarget lm targets p = true ∧
        ∀ j, 1 ≤ j → j < k →
          ∃ q, chainFrom hm c j = some q ∧ levelIsTarget lm targets q = false := by
  intro fuel
  induction fuel with
  | zero => intro c visited p h; simp [walkUp] at h
  | succ n ih =>
      intro c visited p h
      rw [walkUp] at h
      by_cases hcv : (c == "" || visited.contains c) = true
      · rw [if_pos hcv] at h; exact absurd h (by simp)
      · rw [if_neg hcv] at h
        cases hl : hm.lookup c with
        | none => exact absurd h (by simp [hl])
        | some parent =>
            simp only [hl] at h
            by_cases ht : levelIsTarget lm targets parent = true
            · rw [if_pos ht] at h
              refine ⟨1, le_refl 1, ?_, ?_, ?_⟩
              · simpa [chainFrom, hl] using h
              · cases h; exact ht
              · intro j hj1 hj2; omega
            · rw [if_neg ht] at h
              obtain ⟨k, hk1, hchain, htgt, hbefore⟩ := ih parent (c :: visited) p h
              refine ⟨k + 1, by omega, ?_, htgt, ?_⟩
              · rw [chainFrom_shift hm hl]; exact hchain
              · intro j hj1 hj2
                cases j with
                | zero => omega
                | succ j' =>
                    cases j' with
                    | zero =>
                        refine ⟨parent, ?_, by simpa using ht⟩
                        simp [chainFrom, hl]
                    | succ j'' =>
                        obtain ⟨q, hq, hqt⟩ :=
                          hbefore (j'' + 1) (by omega) (by omega)
                        exact ⟨q, by rw [chainFrom_shift hm hl]; exact hq, hqt⟩

/-- C4: `find_parent_by_level(id, targets)` returns `id` itself when the
object's own level is a target, and otherwise any returned parent is
the first target-level ancestor met on the upward walk along the parent
map: every strictly earlier ancestor on the chain exists and is not of
a target level. -/
theorem find_parent_by_level_first_ancestor
    (hm lm : List (String × String)) (targets : List String)
    (oid p : String) :
    (oid ≠ "" → levelIsTarget lm targets oid = true →
      find_parent_by_level hm lm oid targets = some oid) ∧
    (find_parent_by_level hm lm oid targets = some p →
      levelIsTarget lm targets oid = false →
      ∃ k, 1 ≤ k ∧ chainFrom hm oid k = some p ∧
        levelIsTarget lm targets p = true ∧
        ∀ j, 1 ≤ j → j < k →
          ∃ q, chainFrom hm oid j = some q ∧
            levelIsTarget lm targets q = false) := by
  constructor
  · intro hne htgt
    unfold find_parent_by_level
    rw [if_neg (by simpa using hne), if_pos htgt]
  · intro hfind hnot
    unfold find_parent_by_level at hfind
    by_cases hoid : (oid == "") = true
    · rw [if_pos hoid] at hfind; exact absurd hfind (by simp)
    · rw [if_neg hoid, if_neg (by simp [hnot])] at hfind
      exact walkUp_sound hm lm targets (hm.length + 1) oid [] p hfind

/-- Witness for C4 on the concrete map 1 → 2 → 3 with 3 at level 5. -/
theorem find_parent_by_level_first_ancestor_witness :
    ∃ k, 1 ≤ k ∧ chainFrom [("1", "2"), ("2", "3")] "1" k = some "3" ∧
      levelIsTarget [("3", "5")] ["5"] "3" = true ∧
      ∀ j, 1 ≤ j → j < k →
        ∃ q, chainFrom [("1", "2"), ("2", "3")] "1" j = some q ∧
          levelIsTarget [("3", "5")] ["5"] q = false :=
  (find_parent_by_level_first_ancestor
    [("1", "2"), ("2", "3")] [("3", "5")] ["5"] "1" "3").2
    (by decide) (by decide)

theorem length_filter_lt_of_mem {α : Type} (L : List α) (p : α → Bool) (x : α)
    (hx : x ∈ L) (hpx : p x = false) : (L.filter p).length < L.length := by
  induction L with
  | nil => cases hx
  | cons a t ih =>
      cases hx with
      | head =>
          rw [List.filter_cons, hpx]
          exact Nat.lt_succ_of_le (List.length_filter_le p t)
      | tail _ hx' =>
          rw [List.filter_cons]
          cases hp : p a with
          | false => simpa [hp] using Nat.lt_succ_of_lt (ih hx')
          | true => simpa [hp] using Nat.succ_lt_succ (ih hx')

theorem mem_of_lookup_eq_some {hm : List (String × String)} {c p : String}
    (h : hm.lookup c = some p) : (c, p) ∈ hm := by
  induction hm with
  | nil => simp [List.lookup] at h
  | cons a t ih =>
      rw [List.lookup] at h
      cases hca : (c == a.1) with
      | true =>
          simp only [hca] at h
          cases h
          have hc : c = a.1 := by simpa using hca
          subst hc
          exact List.mem_cons_self _ _
      | false =>
          simp only [hca] at h
          exact List.mem_cons_of_mem _ (ih h)

theorem liveKeys_cons_lt (hm : List (String × String)) (v : List String)
    {c p : String} (hc : hm.lookup c = some p) (hv : v.contains c = false) :
    liveKeys hm (c :: v) < liveKeys hm v := by
  unfold liveKeys
  have hsplit :
      hm.filter (fun q => !(c :: v).contains q.1) =
        (hm.filter (fun q => !v.contains q.1)).filter (fun q => !(q.1 == c)) := by
    rw [List.filter_filter]
    apply List.filter_congr
    intro q _
    by_cases hq : q.1 = c
    · subst hq
      simp [hv]
    · simp [List.contains_cons, hq, Ne.symm hq]
  rw [hsplit]
  exact length_filter_lt_of_mem _ _ (c, p)
    (by
      rw [List.mem_filter]
      refine ⟨mem_of_lookup_eq_some hc, ?_⟩
      show (!v.contains c) = true
      rw [hv]
      rfl)
    (by simp)

theorem walkUp_fuel_succ (hm lm : List (String × String)) (targets : List String) :
    ∀ (fuel : Nat) (c : String) (v : List String),
      liveKeys hm v + 1 ≤ fuel →
      walkUp hm lm targets fuel c v = walkUp hm lm targets (fuel + 1) c v := by
  intro fuel
  induction fuel with
  | zero => intro c v hb; omega
  | succ n ih =>
      intro c v hb
      rw [walkUp, walkUp]
      by_cases hcv : (c == "" || v.contains c) = true
      · rw [if_pos hcv, if_pos hcv]
      · rw [if_neg hcv, if_neg hcv]
        cases hl : hm.lookup c with
        | none => rfl
        | some parent =>
            simp only [hl]
            by_cases ht : levelIsTarget lm targets parent = true
            · rw [if_pos ht, if_pos ht]
            · rw [if_neg ht, if_neg ht]
              have hvc : v.contains c = false := by
                cases hh : v.contains c with
                | false => rfl
                | true => exact absurd (by rw [hh, Bool.or_true]) hcv
              have := liveKeys_cons_lt hm v hl hvc
              exact ih parent (c :: v) (by omega)

theorem walkUp_fuel_stable (hm lm : List (String × String))
    (targets : List String) (c : String) (v : List String) :
    ∀ (f₁ f₂ : Nat), liveKeys hm v + 1 ≤ f₁ → f₁ ≤ f₂ →
      walkUp hm lm targets f₁ c v = walkUp hm lm targets f₂ c v := by
  intro f₁ f₂ hb hle
  induction f₂ with
  | zero =>
      have : f₁ = 0 := by omega
      subst this; rfl
  | succ n ih =>
      by_cases hf : f₁ = n + 1
      · subst hf; rfl
      · have hle' : f₁ ≤ n := by omega
        rw [ih hle']
        exact walkUp_fuel_succ hm lm targets n c v (by omega)

theorem liveKeys_nil_le (hm : List (String × String)) :
    liveKeys hm [] ≤ hm.length := by
  unfold liveKeys
  exact List.length_filter_le _ _

/-- C5: the walk of `find_parent_by_level` terminates on every finite
parent map: its result is already stable at fuel `|hierarchy_map| + 1`
(the bound used in the definition), for every larger fuel the result is
unchanged; the walk returns `none` as soon as it revisits an id or
leaves the map; and on the concrete cyclic map `{700 → 800, 800 → 700}`
the call `find_parent_by_level(700, ['3','4'])` returns "not found". -/
theorem find_parent_by_level_terminates
    (hm lm : List (String × String)) (targets : List String)
    (oid : String) :
    (∀ fuel, hm.length + 1 ≤ fuel →
      walkUp hm lm targets fuel oid [] =
        walkUp hm lm targets (hm.length + 1) oid []) ∧
    (∀ fuel c visited, visited.contains c = true →
      walkUp hm lm targets fuel c visited = none) ∧
    (∀ fuel c visited, hm.lookup c = none →
      walkUp hm lm targets fuel c visited = none) ∧
    find_parent_by_level [("700", "800"), ("800", "700")] []
      "700" ["3", "4"] = none := by
  refine ⟨?_, ?_, ?_, by decide⟩
  · intro fuel hf
    exact (walkUp_fuel_stable hm lm targets oid [] (hm.length + 1) fuel
      (by have := liveKeys_nil_le hm; omega) hf).symm
  · intro fuel c visited hvc
    cases fuel with
    | zero => rfl
    | succ n =>
        rw [walkUp, if_pos (by rw [hvc, Bool.or_true])]
  · intro fuel c visited hlc
    cases fuel with
    | zero => rfl
    | succ n =>
        rw [walkUp]
        by_cases hcv : (c == "" || visited.contains c) = true
        · rw [if_pos hcv]
        · rw [if_neg hcv, hlc]

/-- Witness for C5: with the cyclic map `{700 → 800, 800 → 700}` the
walk is stable at fuel 3, a revisited id stops the walk, and a missing
id stops the walk. -/
theorem find_parent_by_level_terminates_witness :
    walkUp [("700", "800"), ("800", "700")] [] ["3", "4"] 7 "700" [] =
      walkUp [("700", "800"), ("800", "700")] [] ["3", "4"] 3 "700" [] ∧
    walkUp [("700", "800"), ("800", "700")] [] ["3", "4"] 5 "700" ["700"] = none ∧
    walkUp [("700", "800"), ("800", "700")] [] ["3", "4"] 5 "900" [] = none :=
  ⟨(find_parent_by_level_terminates [("700", "800"), ("800", "700")] []
      ["3", "4"] "700").1 7 (by decide),
   (find_parent_by_level_terminates [("700", "800"), ("800", "700")] []
      ["3", "4"] "700").2.1 5 "700" ["700"] (by decide),
   (find_parent_by_level_terminates [("700", "800"), ("800", "700")] []
      ["3", "4"] "700").2.2.1 5 "900" [] (by decide)⟩

theorem lookup_cons_self (m : List (String × String)) (c p : String) :
    ((c, p) :: m).lookup c = some p := by
  simp [List.lookup]

theorem lookup_cons_ne (m : List (String × String)) {a c : String}
    (b : String) (h : a ≠ c) : ((a, b) :: m).lookup c = m.lookup c := by
  have : (c == a) = false := by simpa using (Ne.symm h)
  simp [List.lookup, this]

theorem munStep_lookup_self (m : List (String × String)) (r : ItemRecord)
    {c p : String} (hedge : isActiveEdgeOf r c)
    (hp : r.parentobjid = some p) :
    (munStep m r).lookup c = some p := by
  obtain ⟨hact, hobj, hc, htr⟩ := hedge
  have hptr : p ≠ "" := by
    rw [hp] at htr
    simpa [attrTruthy] using htr
  unfold munStep
  rw [hact, hobj, hp]
  simp only [beq_self_eq_true, if_pos]
  rw [if_pos (by simp [hc, hptr])]
  exact lookup_cons_self m c p

theorem munStep_lookup_other (m : List (String × String)) (r : ItemRecord)
    {c p : String} (hm : m.lookup c = some p)
    (hno : ¬ isActiveEdgeOf r c) :
    (munStep m r).lookup c = some p := by
  unfold munStep
  by_cases hact : (r.isactive == some "1") = true
  · rw [if_pos hact]
    cases hobj : r.objectid with
    | none => exact hm
    | some oid =>
        cases hpar : r.parentobjid with
        | none => exact hm
        | some pid =>
            simp only
            by_cases hcond : (oid ≠ "" && pid ≠ "") = true
            · rw [if_pos hcond]
              have hcond' : oid ≠ "" ∧ pid ≠ "" := by simpa using hcond
              have hoc : oid ≠ c := by
                intro hoc
                subst hoc
                apply hno
                refine ⟨by simpa using hact, hobj, hcond'.1, ?_⟩
                rw [hpar]
                simpa [attrTruthy] using hcond'.2
              rw [lookup_cons_ne m pid hoc]
              exact hm
            · rw [if_neg hcond]
              exact hm
  · rw [if_neg hact]
    exact hm

theorem loadMun_lookup (c p : String) :
    ∀ (recs : List ItemRecord) (m : List (String × String)),
      (∀ r ∈ recs, isActiveEdgeOf r c → r.parentobjid = some p) →
      ((∃ r ∈ recs, isActiveEdgeOf r c) ∨ m.lookup c = some p) →
      (loadMunHierarchy recs m).lookup c = some p := by
  intro recs
  induction recs with
  | nil =>
      intro m _ hsrc
      rcases hsrc with ⟨r, hr, _⟩ | hm
      · cases hr
      · exact hm
  | cons r rest ih =>
      intro m hall hsrc
      have hcons : loadMunHierarchy (r :: rest) m =
          loadMunHierarchy rest (munStep m r) := rfl
      rw [hcons]
      have hall' : ∀ r' ∈ rest, isActiveEdgeOf r' c → r'.parentobjid = some p :=
        fun r' hr' => hall r' (List.mem_cons_of_mem _ hr')
      by_cases hedge : isActiveEdgeOf r c
      · exact ih (munStep m r) hall'
          (Or.inr (munStep_lookup_self m r hedge
            (hall r (List.mem_cons_self _ _) hedge)))
      · rcases hsrc with ⟨r', hr', hedge'⟩ | hm
        · rcases List.mem_cons.mp hr' with rfl | hrest
          · exact absurd hedge' hedge
          · exact ih (munStep m r) hall' (Or.inl ⟨r', hrest, hedge'⟩)
        · exact ih (munStep m r) hall'
            (Or.inr (munStep_lookup_other m r hm hedge))

theorem admStep_preserves (m : List (String × String)) (r : ItemRecord)
    {c p : String} (hm : m.lookup c = some p) :
    (admStep m r).lookup c = some p := by
  unfold admStep
  by_cases hact : (r.isactive == some "1") = true
  · rw [if_pos hact]
    cases hobj : r.objectid with
    | none => exact hm
    | some oid =>
        cases hpar : r.parentobjid with
        | none => exact hm
        | some pid =>
            simp only
            by_cases hcond : (oid ≠ "" && pid ≠ "") = true
            · rw [if_pos hcond]
              by_cases hnone : (m.lookup oid).isNone = true
              · rw [if_pos hnone]
                have hoc : oid ≠ c := by
                  intro hoc
                  subst hoc
                  rw [hm] at hnone
                  simp at hnone
                rw [lookup_cons_ne m pid hoc]
                exact hm
              · rw [if_neg hnone]
                exact hm
            · rw [if_neg hcond]
              exact hm
  · rw [if_neg hact]
    exact hm

theorem loadAdm_preserves (c p : String) :
    ∀ (recs : List ItemRecord) (m : List (String × String)),
      m.lookup c = some p →
      (loadAdmHierarchy recs m).lookup c = some p := by
  intro recs
  induction recs with
  | nil => intro m hm; exact hm
  | cons r rest ih =>
      intro m hm
      have hcons : loadAdmHierarchy (r :: rest) m =
          loadAdmHierarchy rest (admStep m r) := rfl
      rw [hcons]
      exact ih (admStep m r) (admStep_preserves m r hm)

/-- C1: when a child id carries an active municipal edge with parent
`p` (and `p` is the parent of all of its active municipal edges), the
hierarchy index maps the child to `p` whatever the administrative file
contains: the municipal scan writes every active edge unconditionally
and the administrative scan only fills absent children. -/
theorem hierarchy_map_mun_priority
    (munRecs admRecs : List ItemRecord) (c p : String)
    (hex : ∃ r ∈ munRecs, isActiveEdgeOf r c ∧ r.parentobjid = some p)
    (hall : ∀ r ∈ munRecs, isActiveEdgeOf r c → r.parentobjid = some p) :
    (buildHierarchyMap munRecs admRecs).lookup c = some p := by
  unfold buildHierarchyMap
  apply loadAdm_preserves
  apply loadMun_lookup c p munRecs [] hall
  obtain ⟨r, hr, hedge, _⟩ := hex
  exact Or.inl ⟨r, hr, hedge⟩

/-- Witness for C1: child 200 has MUN parent 100 and ADM parent 999;
the index keeps the municipal parent 100. -/
theorem hierarchy_map_mun_priority_witness :
    (buildHierarchyMap
      [{ objectid := some "200", parentobjid := some "100",
         isactive := some "1" }]
      [{ objectid := some "200", parentobjid := some "999",
         isactive := some "1" }]).lookup "200" = some "100" :=
  hierarchy_map_mun_priority _ _ "200" "100"
    ⟨{ objectid := some "200", parentobjid := some "100",
       isactive := some "1" }, by simp, by decide, rfl⟩
    (by decide)

theorem mem_insertSkipConflict {α : Type} (key : α → String) (t : List α)
    (x row : α) (h : row ∈ insertSkipConflict key t x) :
    row ∈ t ∨ row = x := by
  unfold insertSkipConflict at h
  by_cases hc : (t.any fun q => key q == key x) = true
  · rw [if_pos hc] at h
    exact Or.inl h
  · rw [if_neg hc] at h
    rcases List.mem_append.mp h with h1 | h2
    · exact Or.inl h1
    · exact Or.inr (by simpa using h2)

theorem levelStep_lookup (m : List (String × String)) (r : ObjectRecord)
    {k v : String} (h : (levelStep m r).lookup k = some v) :
    (r.isactual = some "1" ∧ r.isactive = some "1" ∧
      r.objectid = some k ∧ r.level = some v) ∨ m.lookup k = some v := by
  unfold levelStep at h
  by_cases hact : (r.isactual == some "1" && r.isactive == some "1") = true
  · rw [if_pos hact] at h
    have hflags : r.isactual = some "1" ∧ r.isactive = some "1" := by
      have := Bool.and_eq_true _ _ ▸ hact
      exact ⟨by simpa using this.1, by simpa using this.2⟩
    cases hobj : r.objectid with
    | none => rw [hobj] at h; exact Or.inr h
    | some oid =>
        cases hlvl : r.level with
        | none => rw [hobj, hlvl] at h; exact Or.inr h
        | some lvl =>
            rw [hobj, hlvl] at h
            simp only at h
            by_cases hcond : (oid ≠ "" && lvl ≠ "") = true
            · rw [if_pos hcond] at h
              by_cases hk : k = oid
              · rw [hk, lookup_cons_self] at h
                exact Or.inl ⟨hflags.1, hflags.2, by rw [hk], h⟩
              · rw [lookup_cons_ne m lvl (Ne.symm hk)] at h
                exact Or.inr h
            · rw [if_neg hcond] at h
              exact Or.inr h
  · rw [if_neg hact] at h
    exact Or.inr h

theorem loadLevels_lookup_provenance (k v : String) :
    ∀ (recs : List ObjectRecord) (m : List (String × String)),
      (loadLevels recs m).lookup k = some v →
      (∃ r ∈ recs, r.isactual = some "1" ∧ r.isactive = some "1" ∧
        r.objectid = some k ∧ r.level = some v) ∨ m.lookup k = some v := by
  intro recs
  induction recs with
  | nil => intro m h; exact Or.inr h
  | cons r rest ih =>
      intro m h
      have hcons : loadLevels (r :: rest) m =
          loadLevels rest (levelStep m r) := rfl
      rw [hcons] at h
      rcases ih (levelStep m r) h with ⟨r', hr', hp⟩ | hm
      · exact Or.inl ⟨r', List.mem_cons_of_mem _ hr', hp⟩
      · rcases levelStep_lookup m r hm with hp | hm'
        · exact Or.inl ⟨r, List.mem_cons_self _ _, hp⟩
        · exact Or.inr hm'

theorem munStep_lookup_provenance (m : List (String × String)) (r : ItemRecord)
    {k v : String} (h : (munStep m r).lookup k = some v) :
    (r.isactive = some "1" ∧ r.objectid = some k ∧ r.parentobjid = some v) ∨
      m.lookup k = some v := by
  unfold munStep at h
  by_cases hact : (r.isactive == some "1") = true
  · rw [if_pos hact] at h
    cases hobj : r.objectid with
    | none => rw [hobj] at h; exact Or.inr h
    | some oid =>
        cases hpar : r.parentobjid with
        | none => rw [hobj, hpar] at h; exact Or.inr h
        | some pid =>
            rw [hobj, hpar] at h
            simp only at h
            by_cases hcond : (oid ≠ "" && pid ≠ "") = true
            · rw [if_pos hcond] at h
              by_cases hk : k = oid
              · rw [hk, lookup_cons_self] at h
                exact Or.inl ⟨by simpa using hact, by rw [hk], h⟩
              · rw [lookup_cons_ne m pid (Ne.symm hk)] at h
                exact Or.inr h
            · rw [if_neg hcond] at h
              exact Or.inr h
  · rw [if_neg hact] at h
    exact Or.inr h

theorem admStep_lookup_provenance (m : List (String × String)) (r : ItemRecord)
    {k v : String} (h : (admStep m r).lookup k = some v) :
    (r.isactive = some "1" ∧ r.objectid = some k ∧ r.parentobjid = some v) ∨
      m.lookup k = some v := by
  unfold admStep at h
  by_cases hact : (r.isactive == some "1") = true
  · rw [if_pos hact] at h
    cases hobj : r.objectid with
    | none => rw [hobj] at h; exact Or.inr h
    | some oid =>
        cases hpar : r.parentobjid with
        | none => rw [hobj, hpar] at h; exact Or.inr h
        | some pid =>
            rw [hobj, hpar] at h
            simp only at h
            by_cases hcond : (oid ≠ "" && pid ≠ "") = true
            · rw [if_pos hcond] at h
              by_cases hnone : ((m.lookup oid).isNone) = true
              · rw [if_pos hnone] at h
                by_cases hk : k = oid
                · rw [hk, lookup_cons_self] at h
                  exact Or.inl ⟨by simpa using hact, by rw [hk], h⟩
                · rw [lookup_cons_ne m pid (Ne.symm hk)] at h
                  exact Or.inr h
              · rw [if_neg hnone] at h
                exact Or.inr h
            · rw [if_neg hcond] at h
              exact Or.inr h
  · rw [if_neg hact] at h
    exact Or.inr h

theorem loadMun_lookup_provenance (k v : String) :
    ∀ (recs : List ItemRecord) (m : List (String × String)),
      (loadMunHierarchy recs m).lookup k = some v →
      (∃ r ∈ recs, r.isactive = some "1" ∧ r.objectid = some k ∧
        r.parentobjid = some v) ∨ m.lookup k = some v := by
  intro recs
  induction recs with
  | nil => intro m h; exact Or.inr h
  | cons r rest ih =>
      intro m h
      have hcons : loadMunHierarchy (r :: rest) m =
          loadMunHierarchy rest (munStep m r) := rfl
      rw [hcons] at h
      rcases ih (munStep m r) h with ⟨r', hr', hp⟩ | hm
      · exact Or.inl ⟨r', List.mem_cons_of_mem _ hr', hp⟩
      · rcases munStep_lookup_provenance m r hm with hp | hm'
        · exact Or.inl ⟨r, List.mem_cons_self _ _, hp⟩
        · exact Or.inr hm'

theorem loadAdm_lookup_provenance (k v : String) :
    ∀ (recs : List ItemRecord) (m : List (String × String)),
      (loadAdmHierarchy recs m).lookup k = some v →
      (∃ r ∈ recs, r.isactive = some "1" ∧ r.objectid = some k ∧
        r.parentobjid = some v) ∨ m.lookup k = some v := by
  intro recs
  induction recs with
  | nil => intro m h; exact Or.inr h
  | cons r rest ih =>
      intro m h
      have hcons : loadAdmHierarchy (r :: rest) m =
          loadAdmHierarchy rest (admStep m r) := rfl
      rw [hcons] at h
      rcases ih (admStep m r) h with ⟨r', hr', hp⟩ | hm
      · exact Or.inl ⟨r', List.mem_cons_of_mem _ hr', hp⟩
      · rcases admStep_lookup_provenance m r hm with hp | hm'
        · exact Or.inl ⟨r, List.mem_cons_self _ _, hp⟩
        · exact Or.inr hm'

theorem stageObjectStep_mun (db : DB) (r : ObjectRecord) {row : AddrRow}
    (h : row ∈ (stageObjectStep db r).municipalities) :
    row ∈ db.municipalities ∨ stagedFrom [r] ["3", "4"] row := by
  unfold stageObjectStep at h
  by_cases hact : (r.isactual == some "1" && r.isactive == some "1") = true
  · rw [if_pos hact] at h
    have hflags : r.isactual = some "1" ∧ r.isactive = some "1" := by
      have := Bool.and_eq_true _ _ ▸ hact
      exact ⟨by simpa using this.1, by simpa using this.2⟩
    cases hobj : r.objectid with
    | none => rw [hobj] at h; exact Or.inl h
    | some oid =>
        rw [hobj] at h
        simp only at h
        by_cases h34 : (r.level.getD "" == "3" || r.level.getD "" == "4") = true
        · rw [if_pos h34] at h
          rcases mem_insertSkipConflict _ _ _ _ h with hmem | hrow
          · exact Or.inl hmem
          · refine Or.inr ⟨r, List.mem_cons_self _ _, hflags.1, hflags.2,
              ?_, oid, hobj, hrow⟩
            simpa using h34
        · rw [if_neg h34] at h
          by_cases h56 : (r.level.getD "" == "5" || r.level.getD "" == "6") = true
          · rw [if_pos h56] at h
            exact Or.inl h
          · rw [if_neg h56] at h
            by_cases h78 : (r.level.getD "" == "7" || r.level.getD "" == "8") = true
            · rw [if_pos h78] at h
              exact Or.inl h
            · rw [if_neg h78] at h
              exact Or.inl h
  · rw [if_neg hact] at h
    exact Or.inl h

theorem stageObjectStep_set (db : DB) (r : ObjectRecord) {row : AddrRow}
    (h : row ∈ (stageObjectStep db r).settlements) :
    row ∈ db.settlements ∨ stagedFrom [r] ["5", "6"] row := by
  unfold stageObjectStep at h
  by_cases hact : (r.isactual == some "1" && r.isactive == some "1") = true
  · rw [if_pos hact] at h
    have hflags : r.isactual = some "1" ∧ r.isactive = some "1" := by
      have := Bool.and_eq_true _ _ ▸ hact
      exact ⟨by simpa using this.1, by simpa using this.2⟩
    cases hobj : r.objectid with
    | none => rw [hobj] at h; exact Or.inl h
    | some oid =>
        rw [hobj] at h
        simp only at h
        by_cases h34 : (r.level.getD "" == "3" || r.level.getD "" == "4") = true
        · rw [if_pos h34] at h
          exact Or.inl h
        · rw [if_neg h34] at h
          by_cases h56 : (r.level.getD "" == "5" || r.level.getD "" == "6") = true
          · rw [if_pos h56] at h
            rcases mem_insertSkipConflict _ _ _ _ h with hmem | hrow
            · exact Or.inl hmem
            · refine Or.inr ⟨r, List.mem_cons_self _ _, hflags.1, hflags.2,
                ?_, oid, hobj, hrow⟩
              simpa using h56
          · rw [if_neg h56] at h
            by_cases h78 : (r.level.getD "" == "7" || r.level.getD "" == "8") = true
            · rw [if_pos h78] at h
              exact Or.inl h
            · rw [if_neg h78] at h
              exact Or.inl h
  · rw [if_neg hact] at h
    exact Or.inl h

theorem stageObjectStep_str (db : DB) (r : ObjectRecord) {row : AddrRow}
    (h : row ∈ (stageObjectStep db r).streets) :
    row ∈ db.streets ∨ stagedFrom [r] ["7", "8"] row := by
  unfold stageObjectStep at h
  by_cases hact : (r.isactual == some "1" && r.isactive == some "1") = true
  · rw [if_pos hact] at h
    have hflags : r.isactual = some "1" ∧ r.isactive = some "1" := by
      have := Bool.and_eq_true _ _ ▸ hact
      exact ⟨by simpa using this.1, by simpa using this.2⟩
    cases hobj : r.objectid with
    | none => rw [hobj] at h; exact Or.inl h
    | some oid =>
        rw [hobj] at h
        simp only at h
        by_cases h34 : (r.level.getD "" == "3" || r.level.getD "" == "4") = true
        · rw [if_pos h34] at h
          exact Or.inl h
        · rw [if_neg h34] at h
          by_cases h56 : (r.level.getD "" == "5" || r.level.getD "" == "6") = true
          · rw [if_pos h56] at h
            exact Or.inl h
          · rw [if_neg h56] at h
            by_cases h78 : (r.level.getD "" == "7" || r.level.getD "" == "8") = true
            · rw [if_pos h78] at h
              rcases mem_insertSkipConflict _ _ _ _ h with hmem | hrow
              · exact Or.inl hmem
              · refine Or.inr ⟨r, List.mem_cons_self _ _, hflags.1, hflags.2,
                  ?_, oid, hobj, hrow⟩
                simpa using h78
            · rw [if_neg h78] at h
              exact Or.inl h
  · rw [if_neg hact] at h
    exact Or.inl h

theorem stagedFrom_mono {recs : List ObjectRecord} {levels : List String}
    {row : AddrRow} {r : ObjectRecord} (h : stagedFrom [r] levels row)
    (hr : r ∈ recs) : stagedFrom recs levels row := by
  obtain ⟨r', hr', hp⟩ := h
  rcases List.mem_cons.mp hr' with rfl | hnil
  · exact ⟨r', hr, hp⟩
  · cases hnil

theorem processAddrObjects_mun_provenance :
    ∀ (recs : List ObjectRecord) (db : DB) (row : AddrRow),
      row ∈ (processAddrObjects recs db).municipalities →
      row ∈ db.municipalities ∨ stagedFrom recs ["3", "4"] row := by
  intro recs
  induction recs with
  | nil => intro db row h; exact Or.inl h
  | cons r rest ih =>
      intro db row h
      have hcons : processAddrObjects (r :: rest) db =
          processAddrObjects rest (stageObjectStep db r) := rfl
      rw [hcons] at h
      rcases ih (stageObjectStep db r) row h with hstep | hrest
      · rcases stageObjectStep_mun db r hstep with hmem | hfrom
        · exact Or.inl hmem
        · exact Or.inr (stagedFrom_mono hfrom (List.mem_cons_self _ _))
      · obtain ⟨r', hr', hp⟩ := hrest
        exact Or.inr ⟨r', List.mem_cons_of_mem _ hr', hp⟩

theorem processAddrObjects_set_provenance :
    ∀ (recs : List ObjectRecord) (db : DB) (row : AddrRow),
      row ∈ (processAddrObjects recs db).settlements →
      row ∈ db.settlements ∨ stagedFrom recs ["5", "6"] row := by
  intro recs
  induction recs with
  | nil => intro db row h; exact Or.inl h
  | cons r rest ih =>
      intro db row h
      have hcons : processAddrObjects (r :: rest) db =
          processAddrObjects rest (stageObjectStep db r) := rfl
      rw [hcons] at h
      rcases ih (stageObjectStep db r) row h with hstep | hrest
      · rcases stageObjectStep_set db r hstep with hmem | hfrom
        · exact Or.inl hmem
        · exact Or.inr (stagedFrom_mono hfrom (List.mem_cons_self _ _))
      · obtain ⟨r', hr', hp⟩ := hrest
        exact Or.inr ⟨r', List.mem_cons_of_mem _ hr', hp⟩

theorem processAddrObjects_str_provenance :
    ∀ (recs : List ObjectRecord) (db : DB) (row : AddrRow),
      row ∈ (processAddrObjects recs db).streets →
      row ∈ db.streets ∨ stagedFrom recs ["7", "8"] row := by
  intro recs
  induction recs with
  | nil => intro db row h; exact Or.inl h
  | cons r rest ih =>
      intro db row h
      have hcons : processAddrObjects (r :: rest) db =
          processAddrObjects rest (stageObjectStep db r) := rfl
      rw [hcons] at h
      rcases ih (stageObjectStep db r) row h with hstep | hrest
      · rcases stageObjectStep_str db r hstep with hmem | hfrom
        · exact Or.inl hmem
        · exact Or.inr (stagedFrom_mono hfrom (List.mem_cons_self _ _))
      · obtain ⟨r', hr', hp⟩ := hrest
        exact Or.inr ⟨r', List.mem_cons_of_mem _ hr', hp⟩

/-- C6: only active records enter the staging sets and the hierarchy
index.  Every level-map entry comes from an `OBJECT` with
`ISACTUAL = '1'` and `ISACTIVE = '1'`; every parent-map entry comes
from an `ITEM` with `ISACTIVE = '1'` of the municipal or the
administrative file; and every municipality, settlement and street row
staged from the empty tables comes from an `OBJECT` with both flags
`'1'` routed at the matching level.  Records failing the flag checks
never contribute. -/
theorem staging_and_index_only_active
    (objRecs : List ObjectRecord) (munRecs admRecs : List ItemRecord) :
    (∀ k v, (loadLevels objRecs []).lookup k = some v →
      ∃ r ∈ objRecs, r.isactual = some "1" ∧ r.isactive = some "1" ∧
        r.objectid = some k ∧ r.level = some v) ∧
    (∀ k v, (buildHierarchyMap munRecs admRecs).lookup k = some v →
      (∃ r ∈ munRecs, r.isactive = some "1" ∧ r.objectid = some k ∧
        r.parentobjid = some v) ∨
      (∃ r ∈ admRecs, r.isactive = some "1" ∧ r.objectid = some k ∧
        r.parentobjid = some v)) ∧
    (∀ row ∈ (processAddrObjects objRecs {}).municipalities,
      stagedFrom objRecs ["3", "4"] row) ∧
    (∀ row ∈ (processAddrObjects objRecs {}).settlements,
      stagedFrom objRecs ["5", "6"] row) ∧
    (∀ row ∈ (processAddrObjects objRecs {}).streets,
      stagedFrom objRecs ["7", "8"] row) := by
  refine ⟨?_, ?_, ?_, ?_, ?_⟩
  · intro k v h
    rcases loadLevels_lookup_provenance k v objRecs [] h with hp | hnil
    · exact hp
    · simp [List.lookup] at hnil
  · intro k v h
    unfold buildHierarchyMap at h
    rcases loadAdm_lookup_provenance k v admRecs _ h with hadm | hmun
    · exact Or.inr hadm
    · rcases loadMun_lookup_provenance k v munRecs [] hmun with hp | hnil
      · exact Or.inl hp
      · simp [List.lookup] at hnil
  · intro row h
    rcases processAddrObjects_mun_provenance objRecs {} row h with hnil | hp
    · cases hnil
    · exact hp
  · intro row h
    rcases processAddrObjects_set_provenance objRecs {} row h with hnil | hp
    · cases hnil
    · exact hp
  · intro row h
    rcases processAddrObjects_str_provenance objRecs {} row h with hnil | hp
    · cases hnil
    · exact hp

/-- Witness for C6 on a two-record object file (a street 10 at level 7
and a municipality 40 at level 3) and a one-edge municipal file. -/
theorem staging_and_index_only_active_witness :
    (∃ r ∈ [({ objectid := some "10",
               level := some "7",
               isactual := some "1",
               isactive := some "1" } : ObjectRecord),
            ({ objectid := some "40",
               level := some "3",
               isactual := some "1",
               isactive := some "1" } : ObjectRecord)],
      r.isactual = some "1" ∧ r.isactive = some "1" ∧
        r.objectid = some "10" ∧ r.level = some "7") ∧
    ((∃ r ∈ [({ objectid := some "20",
                parentobjid := some "30",
                isactive := some "1" } : ItemRecord)],
      r.isactive = some "1" ∧ r.objectid = some "20" ∧
        r.parentobjid = some "30") ∨
      (∃ r ∈ ([] : List ItemRecord), r.isactive = some "1" ∧
        r.objectid = some "20" ∧ r.parentobjid = some "30")) ∧
    stagedFrom [({ objectid := some "10",
                   level := some "7",
                   isactual := some "1",
                   isactive := some "1" } : ObjectRecord),
                ({ objectid := some "40",
                   level := some "3",
                   isactual := some "1",
                   isactive := some "1" } : ObjectRecord)]
      ["3", "4"]
      (objRowOf { objectid := some "40",
                  level := some "3",
                  isactual := some "1",
                  isactive := some "1" } "40") :=
  ⟨(staging_and_index_only_active
      [{ objectid := some "10", level := some "7",
         isactual := some "1", isactive := some "1" },
       { objectid := some "40", level := some "3",
         isactual := some "1", isactive := some "1" }]
      [{ objectid := some "20", parentobjid := some "30",
         isactive := some "1" }] []).1 "10" "7" (by decide),
   (staging_and_index_only_active
      [{ objectid := some "10", level := some "7",
         isactual := some "1", isactive := some "1" },
       { objectid := some "40", level := some "3",
         isactual := some "1", isactive := some "1" }]
      [{ objectid := some "20", parentobjid := some "30",
         isactive := some "1" }] []).2.1 "20" "30" (by decide),
   (staging_and_index_only_active
      [{ objectid := some "10", level := some "7",
         isactual := some "1", isactive := some "1" },
       { objectid := some "40", level := some "3",
         isactual := some "1", isactive := some "1" }]
      [{ objectid := some "20", parentobjid := some "30",
         isactive := some "1" }] []).2.2.1
      (objRowOf { objectid := some "40", level := some "3",
                  isactual := some "1", isactive := some "1" } "40")
      (by decide)⟩

/-- C10: `find_mo_parent` returns the object itself when the object's
own level is `'3'` or `'4'`, and the municipality fill of
`build_hierarchy_links_fixed` skips every result equal to the object
being filled, so when every municipality row carries its own level 3–4
entry in the level map (each staged object id has one active record),
no municipality receives a non-null `parent_id`. -/
theorem municipalities_parent_id_stays_null
    (hm lm : List (String × String)) (db : DB) :
    (∀ oid : String, oid ≠ "" → levelIsTarget lm ["3", "4"] oid = true →
      find_mo_parent hm lm oid = some oid) ∧
    ((∀ row ∈ db.municipalities,
        row.objectid ≠ "" ∧ levelIsTarget lm ["3", "4"] row.objectid = true) →
      (∀ row ∈ db.municipalities, row.parent_id = none) →
      ∀ row ∈ (fillMunicipalityParents hm lm db).municipalities,
        row.parent_id = none) := by
  constructor
  · intro oid hne ht
    unfold find_mo_parent
    rw [if_neg (by simpa using hne), if_pos ht]
  · intro hlvl hinit row hrow
    unfold fillMunicipalityParents at hrow
    simp only [List.mem_map] at hrow
    obtain ⟨r0, hr0, heq⟩ := hrow
    obtain ⟨hne, ht⟩ := hlvl r0 hr0
    have hmo : find_mo_parent hm lm r0.objectid = some r0.objectid := by
      unfold find_mo_parent
      rw [if_neg (by simpa using hne), if_pos ht]
    subst heq
    simp only [hmo, bne_self_eq_false, Bool.and_false, if_false]
    exact hinit r0 hr0

/-- Witness for C10: a single municipality 100 at level 4 that is its
own municipal ancestor keeps a null `parent_id`. -/
theorem municipalities_parent_id_stays_null_witness :
    find_mo_parent [("100", "50")] [("100", "4")] "100" = some "100" ∧
    ∀ row ∈ (fillMunicipalityParents [("100", "50")] [("100", "4")]
        { municipalities := [{ objectid := "100", level := "4" }] }).municipalities,
      row.parent_id = none :=
  ⟨(municipalities_parent_id_stays_null [("100", "50")] [("100", "4")]
      { municipalities := [{ objectid := "100", level := "4" }] }).1
      "100" (by decide) (by decide),
   (municipalities_parent_id_stays_null [("100", "50")] [("100", "4")]
      { municipalities := [{ objectid := "100", level := "4" }] }).2
      (by decide) (by decide)⟩

theorem findStep_mem (listings : String → Option (List String))
    (pattern : String) (files : List String) (d p : String) :
    p ∈ findStep listings pattern files d ↔
      p ∈ files ∨ ∃ names, listings d = some names ∧
        ∃ n ∈ names, fileMatches pattern n = true ∧ p = d ++ "/" ++ n := by
  unfold findStep
  cases hl : listings d with
  | none =>
      simp only [hl]
      constructor
      · exact fun h => Or.inl h
      · rintro (h | ⟨names, hnames, _⟩)
        · exact h
        · cases hnames
  | some names =>
      simp only [hl, List.mem_append, List.mem_map, List.mem_filter]
      constructor
      · rintro (h | ⟨n, ⟨hn, hmatch⟩, hp⟩)
        · exact Or.inl h
        · exact Or.inr ⟨names, rfl, n, hn, hmatch, hp.symm⟩
      · rintro (h | ⟨names', hnames', n, hn, hmatch, hp⟩)
        · exact Or.inl h
        · cases hnames'
          exact Or.inr ⟨n, ⟨hn, hmatch⟩, hp.symm⟩

theorem find_files_foldl_mem (listings : String → Option (List String))
    (pattern : String) :
    ∀ (dirs : List String) (acc : List String) (p : String),
      p ∈ dirs.foldl (findStep listings pattern) acc ↔
        p ∈ acc ∨ ∃ d ∈ dirs, ∃ names, listings d = some names ∧
          ∃ n ∈ names, fileMatches pattern n = true ∧ p = d ++ "/" ++ n := by
  intro dirs
  induction dirs with
  | nil =>
      intro acc p
      simp
  | cons d rest ih =>
      intro acc p
      rw [List.foldl_cons, ih]
      rw [findStep_mem]
      constructor
      · rintro ((h | ⟨names, hnames, n, hn, hmatch, hp⟩) | ⟨d', hd', hrest⟩)
        · exact Or.inl h
        · exact Or.inr ⟨d, List.mem_cons_self _ _, names, hnames,
            n, hn, hmatch, hp⟩
        · exact Or.inr ⟨d', List.mem_cons_of_mem _ hd', hrest⟩
      · rintro (h | ⟨d', hd', hrest⟩)
        · exact Or.inl (Or.inl h)
        · rcases List.mem_cons.mp hd' with rfl | hd''
          · exact Or.inl (Or.inr hrest)
          · exact Or.inr ⟨d', hd'', hrest⟩

/-- C9 (amended): `find_files` returns exactly the paths `d ++ "/" ++ n`
where `d` is the root directory or, when a region code is configured,
the single `<root>/<region_code>` subdirectory, `d` exists, and `n` is
an entry of `d` whose uppercased name contains the pattern verbatim and
whose name ends with `.XML` — and nothing from any other location. -/
theorem find_files_characterisation (directory : String)
    (listings : String → Option (List String)) (regionCode : Option String)
    (pattern : String) (p : String) :
    p ∈ find_files directory listings regionCode pattern ↔
      ∃ d ∈ searchDirs directory regionCode,
        ∃ names, listings d = some names ∧
          ∃ n ∈ names, fileMatches pattern n = true ∧ p = d ++ "/" ++ n := by
  unfold find_files
  rw [find_files_foldl_mem]
  simp

/-- C9 counterexample: the matching is not case-insensitive in the
pattern.  A lowercase pattern `"as_addr_obj"` case-insensitively occurs
in `"AS_ADDR_OBJ_01.XML"`, which ends with `.XML`, yet `find_files`
returns nothing, because the source only uppercases the filename. -/
theorem find_files_lowercase_pattern_misses :
    find_files "root"
      (fun d => if d == "root" then some ["AS_ADDR_OBJ_01.XML"] else none)
      none "as_addr_obj" = [] ∧
    caseInsensitiveContains "AS_ADDR_OBJ_01.XML" "as_addr_obj" = true ∧
    pyEndsWith "AS_ADDR_OBJ_01.XML" ".XML" = true := by
  refine ⟨?_, ?_, ?_⟩ <;> decide

/-- C8: the address composer fills `full_address` only on houses whose
three ancestor foreign keys are all non-null and reference existing
rows; it then writes the trimmed comma-separated join of municipality
name, settlement type and name, street type and name, and the prefixed
house, building and structure numbers (null parts skipped); a house
with a missing or dangling ancestor key is left unchanged — and a
freshly staged house has a null `full_address`, so it retains null. -/
theorem build_full_addresses_spec (db : DB) (h : HouseRow) :
    ((buildFullAddresses db).houses = db.houses.map (addressHouse db)) ∧
    (∀ r : HouseRecord, ∀ oid : String,
      (houseRowOf r oid).full_address = none) ∧
    (h.municipality_id = none ∨ h.settlement_id = none ∨
        h.street_id = none →
      addressHouse db h = h) ∧
    (∀ mid sid stid, h.municipality_id = some mid →
      h.settlement_id = some sid → h.street_id = some stid →
      (db.municipalities.find? (fun q => q.objectid == mid) = none ∨
       db.settlements.find? (fun q => q.objectid == sid) = none ∨
       db.streets.find? (fun q => q.objectid == stid) = none) →
      addressHouse db h = h) ∧
    (∀ mid sid stid m se st, h.municipality_id = some mid →
      h.settlement_id = some sid → h.street_id = some stid →
      db.municipalities.find? (fun q => q.objectid == mid) = some m →
      db.settlements.find? (fun q => q.objectid == sid) = some se →
      db.streets.find? (fun q => q.objectid == stid) = some st →
      addressHouse db h =
        { h with full_address := some (mkFullAddress m se st h) }) := by
  refine ⟨rfl, fun r oid => rfl, ?_, ?_, ?_⟩
  · intro hnull
    unfold addressHouse
    cases hmu : h.municipality_id with
    | none => rfl
    | some mid =>
        cases hse : h.settlement_id with
        | none => rfl
        | some sid =>
            cases hst : h.street_id with
            | none => rfl
            | some stid =>
                rcases hnull with hn | hn | hn
                · rw [hmu] at hn; cases hn
                · rw [hse] at hn; cases hn
                · rw [hst] at hn; cases hn
  · intro mid sid stid hm hs hst hmiss
    unfold addressHouse
    rw [hm, hs, hst]
    simp only
    cases hfm : db.municipalities.find? (fun q => q.objectid == mid) with
    | none => rfl
    | some m =>
        cases hfs : db.settlements.find? (fun q => q.objectid == sid) with
        | none => rfl
        | some se =>
            cases hfst : db.streets.find? (fun q => q.objectid == stid) with
            | none => rfl
            | some st =>
                rcases hmiss with hn | hn | hn
                · rw [hfm] at hn; cases hn
                · rw [hfs] at hn; cases hn
                · rw [hfst] at hn; cases hn
  · intro mid sid stid m se st hm hs hst hfm hfs hfst
    unfold addressHouse
    rw [hm, hs, hst]
    simp only
    rw [hfm, hfs, hfst]

/-- Witness for C8: a fully linked house gets the composed address; a
house with a null street keeps its null address. -/
theorem build_full_addresses_spec_witness :
    addressHouse
      { municipalities := [{ objectid := "100", name := "Край" }],
        settlements := [{ objectid := "200", name := "Село",
                          typename := "с" }],
        streets := [{ objectid := "300", name := "Ленина",
                      typename := "ул" }] }
      { objectid := "400", house_number := some "5",
        municipality_id := some "100", settlement_id := some "200",
        street_id := some "300" } =
      { objectid := "400", house_number := some "5",
        municipality_id := some "100", settlement_id := some "200",
        street_id := some "300",
        full_address := some (mkFullAddress
          { objectid := "100", name := "Край" }
          { objectid := "200", name := "Село", typename := "с" }
          { objectid := "300", name := "Ленина", typename := "ул" }
          { objectid := "400", house_number := some "5",
            municipality_id := some "100", settlement_id := some "200",
            street_id := some "300" }) } ∧
    addressHouse ({} : DB) ({ objectid := "401" } : HouseRow) =
      { objectid := "401" } :=
  ⟨(build_full_addresses_spec
      { municipalities := [{ objectid := "100", name := "Край" }],
        settlements := [{ objectid := "200", name := "Село",
                          typename := "с" }],
        streets := [{ objectid := "300", name := "Ленина",
                      typename := "ул" }] }
      { objectid := "400", house_number := some "5",
        municipality_id := some "100", settlement_id := some "200",
        street_id := some "300" }).2.2.2.2 "100" "200" "300"
      _ _ _ rfl rfl rfl (by decide) (by decide) (by decide),
   (build_full_addresses_spec ({} : DB)
      ({ objectid := "401" } : HouseRow)).2.2.1 (Or.inl rfl)⟩

/-- C7 counterexample: no `DataError` counter exists in
`process_house_params`.  On the out-of-range value `"10000"` for type
14 the whole state except `processed` is unchanged — `residents_count`
stays null and `updated` stays 0 —, while on a valid value `"10"` the
same `processed` counter also advances (so it counts every record, not
errors) and only `updated` moves. -/
theorem house_param_rejection_is_silent :
    processHouseParams
      [{ objectid := some "400", typeid := some "14",
         value := some "10000" }]
      ({ houses := [{ objectid := "400" }] } : DB) =
      { db := { houses := [{ objectid := "400" }] },
        processed := 1, updated := 0 } ∧
    (processHouseParams
      [{ objectid := some "400", typeid := some "14", value := some "10" }]
      ({ houses := [{ objectid := "400" }] } : DB)).processed = 1 ∧
    (processHouseParams
      [{ objectid := some "400", typeid := some "14", value := some "10" }]
      ({ houses := [{ objectid := "400" }] } : DB)).updated = 1 ∧
    ((processHouseParams
      [{ objectid := some "400", typeid := some "14", value := some "10" }]
      ({ houses := [{ objectid := "400" }] } : DB)).db.houses.map
        (fun h => h.residents_count)) = [some 10] := by
  refine ⟨?_, ?_, ?_, ?_⟩ <;> decide

/-- C7 (amended): the count fields accept exactly the values that trim
non-empty, parse as an integer via float and lie in `0 ≤ n ≤ 1000`; a
cadastral number must trim non-empty and contain a colon and is stored
truncated to 100 characters; and a record whose value fails validation
leaves the whole state unchanged except the `processed` counter that
every record advances — the run does not fail and no error counter
exists. -/
theorem house_param_validation_spec :
    (∀ fname value : String, ∀ n : Int,
      fname = "residents_count" ∨ fname = "floors_count" →
      intOfFloatStr (pyStrip value) = some n → ¬(0 ≤ n ∧ n ≤ 1000) →
      validate_param_value fname value = none) ∧
    (∀ fname value : String, ∀ n : Int,
      fname = "residents_count" ∨ fname = "floors_count" →
      intOfFloatStr (pyStrip value) = some n → 0 ≤ n → n ≤ 1000 →
      pyStrip value ≠ "" →
      validate_param_value fname value = some (ParamValue.int n)) ∧
    (∀ value : String, pyStrip value ≠ "" →
      validate_param_value "cadastral_number" value =
        (if (pyStrip value).data.contains ':' then
          some (ParamValue.str (String.mk ((pyStrip value).data.take 100)))
        else none)) ∧
    (∀ (st : ParamState) (r : ParamRecord),
      (∀ fname oid value, r.typeid.bind param_mapping = some fname →
        r.objectid = some oid → r.value = some value →
        validate_param_value fname value = none) →
      processParamStep st r = { st with processed := st.processed + 1 }) := by
  refine ⟨?_, ?_, ?_, ?_⟩
  · intro fname value n hf hparse hrange
    have hne : ¬((pyStrip value == "") = true) := by
      intro hempty
      have he : pyStrip value = "" := by simpa using hempty
      have hnone : intOfFloatStr "" = none := by decide
      rw [he, hnone] at hparse
      exact Option.noConfusion hparse
    have hcad : ¬((fname == "cadastral_number") = true) := by
      rcases hf with rfl | rfl <;> decide
    have hcnt : (fname == "residents_count" ||
        fname == "floors_count") = true := by
      rcases hf with rfl | rfl <;> decide
    unfold validate_param_value
    rw [if_neg hne, if_neg hcad, if_pos hcnt]
    simp only [hparse]
    by_cases hcond : (decide (0 ≤ n) && decide (n ≤ 1000)) = true
    · exact absurd (by simpa using hcond) hrange
    · rw [if_neg hcond]
  · intro fname value n hf hparse h0 h1 hne
    have hne' : ¬((pyStrip value == "") = true) := by simpa using hne
    have hcad : ¬((fname == "cadastral_number") = true) := by
      rcases hf with rfl | rfl <;> decide
    have hcnt : (fname == "residents_count" ||
        fname == "floors_count") = true := by
      rcases hf with rfl | rfl <;> decide
    unfold validate_param_value
    rw [if_neg hne', if_neg hcad, if_pos hcnt]
    simp only [hparse]
    rw [if_pos (by simp [h0, h1])]
  · intro value hne
    have hne' : ¬((pyStrip value == "") = true) := by simpa using hne
    unfold validate_param_value
    rw [if_neg hne', if_pos (by decide)]
  · intro st r hval
    unfold processParamStep
    by_cases hc : (attrTruthy r.objectid && attrTruthy r.typeid &&
        attrTruthy r.value && (r.typeid.bind param_mapping).isSome) = true
    · rw [if_pos hc]
      cases hf : r.typeid.bind param_mapping with
      | none => rfl
      | some fname =>
          cases ho : r.objectid with
          | none => rfl
          | some oid =>
              cases hv : r.value with
              | none => rfl
              | some value =>
                  simp only
                  rw [hval fname oid value hf ho hv]
    · rw [if_neg hc]

/-- Witness for C7 (amended): `"10000"` is rejected, `"10"` accepted,
a cadastral number stored, and the rejected record advances only
`processed`. -/
theorem house_param_validation_spec_witness :
    validate_param_value "residents_count" "10000" = none ∧
    validate_param_value "residents_count" "10" = some (ParamValue.int 10) ∧
    validate_param_value "cadastral_number" " 77:01:04:5 " =
      (if (pyStrip " 77:01:04:5 ").data.contains ':' then
        some (ParamValue.str
          (String.mk ((pyStrip " 77:01:04:5 ").data.take 100)))
      else none) ∧
    processParamStep { db := { houses := [{ objectid := "400" }] } }
      { objectid := some "400", typeid := some "14",
        value := some "10000" } =
      { db := { houses := [{ objectid := "400" }] },
        processed := 1, updated := 0 } :=
  ⟨house_param_validation_spec.1 "residents_count" "10000" 10000
      (Or.inl rfl) (by decide) (by decide),
   house_param_validation_spec.2.1 "residents_count" "10" 10
      (Or.inl rfl) (by decide) (by decide) (by decide) (by decide),
   house_param_validation_spec.2.2.1 " 77:01:04:5 " (by decide),
   house_param_validation_spec.2.2.2
      { db := { houses := [{ objectid := "400" }] } }
      { objectid := some "400", typeid := some "14",
        value := some "10000" }
      (by
        intro fname oid value hf ho hv
        have hf2 : (some "residents_count" : Option String) = some fname := hf
        have hv2 : (some "10000" : Option String) = some value := hv
        have hf3 : fname = "residents_count" := (Option.some.inj hf2).symm
        have hv3 : value = "10000" := (Option.some.inj hv2).symm
        subst hf3
        subst hv3
        decide)⟩

/-- C2 counterexample: after the full pipeline run of `main` on
Scenario 3, street 300 does resolve to municipality 100, yet house 400
ends with `street_id` and `municipality_id` both null — not 100 as the
claim states.  `main` never invokes `fix_final_mo_connections`, and a
house without a hierarchy edge never acquires a `street_id` for the
through-street fill to use. -/
theorem pipeline_scenario3_house_not_filled :
    ((runPipeline scenario3Input).streets.map
        (fun st => (st.objectid, st.municipality_id))) =
      [("300", some "100")] ∧
    ((runPipeline scenario3Input).settlements.map
        (fun s => (s.objectid, s.municipality_id))) =
      [("200", some "100")] ∧
    ((runPipeline scenario3Input).houses.map
        (fun h => (h.objectid, h.street_id, h.municipality_id))) =
      [("400", none, none)] := by
  refine ⟨?_, ?_, ?_⟩ <;> decide

/-- C2 (amended): the through-street fill implemented by
`fix_final_mo_connections` does copy the street's municipality onto
every house whose `municipality_id` is null and whose `street_id`
references a street with a non-null municipality — but `main` never
calls it, and the pipeline's own reconciliation copies only through
the settlement, so after a full run house 400 of Scenario 3 retains a
null `municipality_id`. -/
theorem fix_final_via_streets_fills (db : DB) (h : HouseRow)
    (stid mo : String) (st : AddrRow) (hmem : h ∈ db.houses)
    (hmu : h.municipality_id = none) (hst : h.street_id = some stid)
    (hfind : db.streets.find? (fun s => s.objectid == stid) = some st)
    (hstm : st.municipality_id = some mo) :
    { h with municipality_id := some mo } ∈ (fixFinalViaStreets db).houses := by
  have hrow : (fun q : HouseRow =>
      match q.municipality_id, q.street_id with
      | none, some stid' =>
          match db.streets.find? (fun s => s.objectid == stid') with
          | some str =>
              match str.municipality_id with
              | some m => { q with municipality_id := some m }
              | none => q
          | none => q
      | _, _ => q) h = { h with municipality_id := some mo } := by
    simp only [hmu, hst, hfind, hstm]
  unfold fixFinalViaStreets
  simp only [List.mem_map]
  exact ⟨h, hmem, hrow⟩

/-- Witness for C2 (amended): invoking the through-street fill on a
one-street database copies municipality 100 onto house 400. -/
theorem fix_final_via_streets_fills_witness :
    ({ objectid := "400", street_id := some "300",
       municipality_id := some "100" } : HouseRow) ∈
      (fixFinalViaStreets
        { streets := [{ objectid := "300",
                        municipality_id := some "100" }],
          houses := [{ objectid := "400",
                       street_id := some "300" }] }).houses :=
  fix_final_via_streets_fills
    { streets := [{ objectid := "300", municipality_id := some "100" }],
      houses := [{ objectid := "400", street_id := some "300" }] }
    { objectid := "400", street_id := some "300" }
    "300" "100" { objectid := "300", municipality_id := some "100" }
    (by decide) rfl rfl (by decide) rfl
